import Mathlib

/-!
Shallow embedding of the Minecraft bot fleet repository:
* `bot.js` — `QAgent` (DQN core: experience replay, epsilon-greedy,
  Bellman targets, target-network sync) and `BotManager.initializeBots`.
* the three scheduler scripts (`src/unnamed/part_000` (second script),
  `part_001`, `part_002`) — slot scheduler: `getIntervalForBot`,
  `delayAllSchedulesOneMinute`, `generateRandomName`, the connection
  error handler and `scheduleNextBot`.

JS numbers are modelled as `ℚ` (rewards, Q-values, epsilon) or `ℕ`
(counters, durations in ms).  The TensorFlow approximators are abstract:
a weight type `W`, a `predict` function `W → S → List ℚ` (a row of
Q-values per state) and a `fitStep` function giving the new live weights
after one optimization step.  The in-place random shuffle
`replayBuffer.sort (fun _ _ => 0.5 - Math.random())` is modelled by an
arbitrary `shuffle` function, constrained to be a permutation where a
claim needs it.
-/

namespace BotFleet

/-- One experience tuple `[state, action, reward, nextState, done]`
pushed by `QAgent.remember` (bot.js line 237). -/
structure Transition (S : Type) where
  state : S
  action : ℕ
  reward : ℚ
  nextState : S
  done : Bool
deriving DecidableEq, Repr

/-- The QAgent hyperparameters (bot.js lines 133-143, with their
default values available as `defaultParams`). -/
structure QParams where
  discountFactor : ℚ
  epsilon0 : ℚ
  epsilonDecay : ℚ
  minEpsilon : ℚ
  replayBufferSize : ℕ
  batchSize : ℕ
  targetUpdateFreq : ℕ
deriving DecidableEq, Repr

/-- The default hyperparameters of `QAgent` (bot.js lines 133-143):
`discountFactor = 0.99`, `epsilon = 1.0`, `epsilonDecay = 0.9995`,
`minEpsilon = 0.005`, `replayBufferSize = 200000`, `batchSize = 64`,
`targetUpdateFreq = 200`. -/
def defaultParams : QParams :=
  { discountFactor := 99/100
    epsilon0 := 1
    epsilonDecay := 9995/10000
    minEpsilon := 5/1000
    replayBufferSize := 200000
    batchSize := 64
    targetUpdateFreq := 200 }

/-- The mutable fields of a `QAgent`: live network weights (`model`),
target network weights (`targetModel`), the replay buffer (oldest
first: JS `push` appends at the back, `shift` removes the front),
`epsilon` and the training-step counter `updateCount`. -/
structure QAgentState (S W : Type) where
  model : W
  targetModel : W
  replayBuffer : List (Transition S)
  epsilon : ℚ
  updateCount : ℕ
deriving DecidableEq, Repr

/-- A freshly constructed `QAgent` (bot.js lines 127-157): empty replay
buffer, `updateCount = 0`, `epsilon = params.epsilon`, and the target
network synchronized with the live network
(`targetModel.setWeights(model.getWeights())`, line 153). -/
def freshAgent {S W : Type} (p : QParams) (w : W) : QAgentState S W :=
  { model := w
    targetModel := w
    replayBuffer := []
    epsilon := p.epsilon0
    updateCount := 0 }

/-- `QAgent.remember` (bot.js lines 236-242): push the transition at
the back; if the length now exceeds `replayBufferSize`, `shift()` the
oldest (front) entry off. -/
def remember {S W : Type} (p : QParams) (ag : QAgentState S W)
    (t : Transition S) : QAgentState S W :=
  let buf := ag.replayBuffer ++ [t]
  { ag with replayBuffer :=
      if p.replayBufferSize < buf.length then buf.drop 1 else buf }

/-- `tf.max` over one row of Q-values (bot.js line 322).  The network
output layer has `outputDim ≥ 1` units, so the empty case is a don't-care
default. -/
def rowMax : List ℚ → ℚ
  | [] => 0
  | q :: qs => qs.foldl max q

/-- The target network used by a training call *after* the periodic
sync check at the top of `trainModel` (bot.js lines 280-284): the
counter is incremented first, and if the new counter is a multiple of
`targetUpdateFreq` the target weights are set to the current live
weights. -/
def syncedTarget {S W : Type} (p : QParams) (ag : QAgentState S W) : W :=
  if (ag.updateCount + 1) % p.targetUpdateFreq = 0 then ag.model else ag.targetModel

/-- The training-target row for one sampled transition (bot.js lines
309-325): start from the live network's current prediction for
`t.state` (`currentQValues.arraySync()`), then overwrite the taken
action's component with `reward` when `done`, otherwise with
`reward + discountFactor * max(Q_target(nextState))`. -/
def bellmanTarget {S W : Type} (p : QParams) (predict : W → S → List ℚ)
    (model tgt : W) (t : Transition S) : List ℚ :=
  let current := predict model t.state
  if t.done then
    current.set t.action t.reward
  else
    current.set t.action
      (t.reward + p.discountFactor * rowMax (predict tgt t.nextState))

/-- `QAgent.trainModel` (bot.js lines 273-340).
* Early return when `replayBuffer.length < batchSize` (lines 275-277).
* Otherwise: increment `updateCount`; sync the target network when the
  new count is a multiple of `targetUpdateFreq` (lines 280-284);
  shuffle the buffer **in place** (`.sort(() => 0.5 - Math.random())`,
  line 288) and take the first `batchSize` entries as the batch
  (line 289); compute the Bellman target rows (lines 309-325); run one
  `fit` step of the live network on `(states, targets)` (lines
  332-335); finally decay epsilon:
  `epsilon = max(minEpsilon, epsilon * epsilonDecay)` (line 339). -/
def trainModel {S W : Type} (p : QParams) (predict : W → S → List ℚ)
    (shuffle : List (Transition S) → List (Transition S))
    (fitStep : W → List S → List (List ℚ) → W)
    (ag : QAgentState S W) : QAgentState S W :=
  if ag.replayBuffer.length < p.batchSize then ag
  else
    let tgt := syncedTarget p ag
    let shuffled := shuffle ag.replayBuffer
    let batch := shuffled.take p.batchSize
    let targets := batch.map (bellmanTarget p predict ag.model tgt)
    { model := fitStep ag.model (batch.map (·.state)) targets
      targetModel := tgt
      replayBuffer := shuffled
      epsilon := max p.minEpsilon (ag.epsilon * p.epsilonDecay)
      updateCount := ag.updateCount + 1 }

/-! ### Slot scheduler (src/unnamed/part_000 second script, part_001, part_002)

All three scheduler scripts share the constants `maxBots = 20`,
`botLifetime = 100*60*1000` ms, `baseInterval = 300` s,
`maxInterval = 360` s, the per-slot delay array `scheduleDelays`
(initially all `0`), and the same `getIntervalForBot` formula.  They
differ in the penalty `delayAllSchedulesOneMinute` adds per failure:
`+= 60` seconds in part_001, `+= 1` in part_002 and in the second
script of part_000. -/

def maxBots : ℕ := 20

def baseInterval : ℕ := 300

def maxInterval : ℕ := 360

def botLifetimeMs : ℕ := 100 * 60 * 1000

/-- `getIntervalForBot(botNumber)` (part_described in all three
scheduler scripts, e.g. part_002 lines 14-18):
`(baseInterval + botNumber % (maxInterval - baseInterval + 1)
  + scheduleDelays[botNumber]) * 1000` milliseconds. -/
def getIntervalForBot (delays : Fin maxBots → ℕ) (i : Fin maxBots) : ℕ :=
  (baseInterval + i.val % (maxInterval - baseInterval + 1) + delays i) * 1000

/-- `delayAllSchedulesOneMinute` of part_001 (lines 24-29):
`scheduleDelays[i] += 60` for every slot (60 seconds = one minute). -/
def delayAllSchedulesOneMinute (delays : Fin maxBots → ℕ) : Fin maxBots → ℕ :=
  fun i => delays i + 60

/-- `delayAllSchedulesOneMinute` of part_002 (lines 20-25) and of the
second script in part_000: `scheduleDelays[i] += 1` for every slot —
one **second** per failure, although the function's own name and log
message say one minute. -/
def delayAllSchedulesOneMinuteV2 (delays : Fin maxBots → ℕ) : Fin maxBots → ℕ :=
  fun i => delays i + 1

/-- The character table of `generateRandomName`:
`'abcdefghijklmnopqrstuvwxyz0123456789'`. -/
def nameChars : List Char :=
  "abcdefghijklmnopqrstuvwxyz0123456789".toList

/-- `generateRandomName()` (part_001 lines 31-38, part_002 lines
27-34): starting from `'Bot_'`, append one character
`chars[Math.floor(Math.random() * chars.length)]` per loop iteration.
The random draws (each in `[0, 36)`) are made explicit as the `draws`
argument: part_001 makes 8 draws, part_002 makes 5.  There is no
uniqueness check against other slots' names. -/
def generateRandomName (draws : List ℕ) : List Char :=
  "Bot_".toList ++ draws.map (fun j => nameChars.getD j ' ')

/-- Timer callbacks armed by the scheduler scripts: the 60-second
failure cooldown runs `scheduleNextBot(botIndex)` (`scheduleFire`),
and `scheduleNextBot`'s own timer attempts a connection
(`createBot(botIndex)` if the slot is empty — `connectAttempt`). -/
inductive TimerEv where
  | scheduleFire (i : Fin maxBots)
  | connectAttempt (i : Fin maxBots)
deriving DecidableEq, Repr

/-- Scheduler state: the per-slot accumulated delays and the armed
one-shot timers as `(absolute fire time in ms, callback)` pairs.
Arming a timer appends to the list; nothing ever rewrites an
already-armed timer. -/
structure SchedState where
  delays : Fin maxBots → ℕ
  timers : List (ℕ × TimerEv)

/-- The connection-error handler of part_001 (lines 61-74, the
`ECONNREFUSED`/`ECONNRESET` branch), firing at absolute time `now` for
slot `i`: first `delayAllSchedulesOneMinute()`, then
`setTimeout(() => scheduleNextBot(botIndex), 60 * 1000)`. -/
def onConnectionError (s : SchedState) (i : Fin maxBots) (now : ℕ) : SchedState :=
  { delays := delayAllSchedulesOneMinute s.delays
    timers := s.timers ++ [(now + 60 * 1000, TimerEv.scheduleFire i)] }

/-- `scheduleNextBot(botIndex)` (part_001 lines 82-90) running at
absolute time `now`: arms a one-shot timer for `getIntervalForBot
(botIndex)` ms from now whose callback attempts the connection. -/
def scheduleNextBot (s : SchedState) (i : Fin maxBots) (now : ℕ) : SchedState :=
  { s with timers :=
      s.timers ++ [(now + getIntervalForBot s.delays i, TimerEv.connectAttempt i)] }

/-- The full failure path of part_001 for slot `i` failing at time
`t`: the error handler runs, then its 60-second cooldown timer fires
and runs `scheduleNextBot i`. -/
def afterFailure (s : SchedState) (i : Fin maxBots) (t : ℕ) : SchedState :=
  scheduleNextBot (onConnectionError s i t) i (t + 60 * 1000)

/-! ### RL fleet identities (bot.js `BotManager.initializeBots`)

New usernames are `` `RL_Agent_${Math.floor(Math.random()*100000)}` ``
(bot.js lines 1354-1360); the identity content is the random number, so
identities are modelled by that number.  The candidate numbers drawn
from `Math.random` are made explicit as a `stream` list. -/

/-- The retry loop of `initializeBots` (bot.js lines 1354-1367): draw a
candidate number, re-draw while the resulting username is already in
`existingUsernames`, then add the accepted username to the set; repeat
until `need` new bots exist.  An exhausted stream ends the recursion
(the JS loop would keep drawing). -/
def genFreshNames : ℕ → List ℕ → List ℕ → List ℕ
  | 0, _, _ => []
  | _ + 1, _, [] => []
  | need + 1, used, r :: rs =>
    if r ∈ used then genFreshNames (need + 1) used rs
    else r :: genFreshNames need (r :: used) rs

/-- The usernames connected by `initializeBots(desiredBotCount)`
(bot.js lines 1332-1367): existing configs are reconnected in order
until the desired count is reached (lines 1338-1344), then fresh names
are generated avoiding the set of **all** loaded usernames and all
names generated so far (lines 1354-1366). -/
def initializeNames (loaded : List ℕ) (desired : ℕ) (stream : List ℕ) : List ℕ :=
  let kept := loaded.take desired
  kept ++ genFreshNames (desired - kept.length) loaded stream

/-! ### Theorems -/

/-- C4: insufficient-data training is a safe no-op.  Whenever
`trainModel` is called with replay buffer size strictly less than
`batchSize`, it performs no optimization step and leaves the whole
agent state unchanged: buffer contents and order, live and target
weights, epsilon and the training-step counter are exactly as before
(the embedding is a total function, so no exception is possible). -/
theorem C4_insufficient_data_noop {S W : Type} (p : QParams)
    (predict : W → S → List ℚ)
    (shuffle : List (Transition S) → List (Transition S))
    (fitStep : W → List S → List (List ℚ) → W)
    (ag : QAgentState S W)
    (h : ag.replayBuffer.length < p.batchSize) :
    trainModel p predict shuffle fitStep ag = ag := by
  simp [trainModel, h]

/-- Witness for C4: a fresh agent with default parameters has an empty
buffer (`0 < batchSize = 64`), and training it changes nothing. -/
theorem C4_insufficient_data_noop_witness :
    trainModel (S := Unit) (W := Unit) defaultParams (fun _ _ => [0]) id
        (fun w _ _ => w) (freshAgent defaultParams ())
      = freshAgent defaultParams () :=
  C4_insufficient_data_noop defaultParams (fun _ _ => [0]) id (fun w _ _ => w)
    (freshAgent defaultParams ()) (by decide)

/-- C5: the scheduler interval formula.  `getIntervalForBot i` equals
`(base + (i mod (max - base + 1)) + accumulatedDelay[i]) * 1000` ms, is
deterministic (it depends only on the slot index and that slot's
accumulated delay), and lies within `[base, max] + accumulatedDelay[i]`
seconds. -/
theorem C5_interval_formula (d₁ d₂ : Fin maxBots → ℕ) (i : Fin maxBots) :
    getIntervalForBot d₁ i
        = (baseInterval + i.val % (maxInterval - baseInterval + 1) + d₁ i) * 1000
    ∧ (d₁ i = d₂ i → getIntervalForBot d₁ i = getIntervalForBot d₂ i)
    ∧ (baseInterval + d₁ i) * 1000 ≤ getIntervalForBot d₁ i
    ∧ getIntervalForBot d₁ i ≤ (maxInterval + d₁ i) * 1000 := by
  refine ⟨rfl, ?_, ?_, ?_⟩
  · intro h
    simp [getIntervalForBot, h]
  · simp only [getIntervalForBot, baseInterval, maxInterval]
    omega
  · simp only [getIntervalForBot, baseInterval, maxInterval]
    omega

/-- Witness for C5 at slot 7 with accumulated delay 11 s: the interval
is `(300 + 7 + 11) * 1000 = 318000` ms, within `[300+11, 360+11]` s. -/
theorem C5_interval_formula_witness :
    getIntervalForBot (fun _ => 11) ⟨7, by decide⟩
        = (baseInterval + (7 : ℕ) % (maxInterval - baseInterval + 1) + 11) * 1000
    ∧ getIntervalForBot (fun _ => 11) ⟨7, by decide⟩
        = getIntervalForBot (fun j => 4 + j.val) ⟨7, by decide⟩
    ∧ (baseInterval + 11) * 1000 ≤ getIntervalForBot (fun _ => 11) ⟨7, by decide⟩
    ∧ getIntervalForBot (fun _ => 11) ⟨7, by decide⟩ ≤ (maxInterval + 11) * 1000 := by
  have h := C5_interval_formula (fun _ => 11) (fun j => 4 + j.val) ⟨7, by decide⟩
  exact ⟨h.1, h.2.1 (by decide), h.2.2.1, h.2.2.2⟩

/-- C6 (code bug evaluation): one call to `delayAllSchedulesOneMinute`
of the part_002 / part_000 variant raises the next computed interval of
slot 0 by `1 * 1000` ms — one **second**, not the one minute the claim
(and the function's own name and log message) state; the part_001
variant does add a full minute (`60 * 1000` ms). -/
theorem C6_penalty_unit_eval :
    getIntervalForBot (delayAllSchedulesOneMinuteV2 (fun _ => 0)) ⟨0, by decide⟩
        = getIntervalForBot (fun _ => 0) ⟨0, by decide⟩ + 1 * 1000
    ∧ ¬ getIntervalForBot (delayAllSchedulesOneMinuteV2 (fun _ => 0)) ⟨0, by decide⟩
        = getIntervalForBot (fun _ => 0) ⟨0, by decide⟩ + 60 * 1000
    ∧ getIntervalForBot (delayAllSchedulesOneMinute (fun _ => 0)) ⟨0, by decide⟩
        = getIntervalForBot (fun _ => 0) ⟨0, by decide⟩ + 60 * 1000 := by
  decide

/-- C1: the Bellman target law of `trainModel`.  A completed training
step hands the optimizer exactly the rows `bellmanTarget` computes for
the sampled batch, and for every sampled transition: when `done` the
taken action's target component is the bare reward (no next-state
prediction occurs in that branch); when not `done` it is
`reward + discountFactor * max(Q_target(nextState))` using the target
network; every other component equals the live network's current
prediction for the state. -/
theorem C1_bellman_target_law {S W : Type} (p : QParams)
    (predict : W → S → List ℚ)
    (shuffle : List (Transition S) → List (Transition S))
    (fitStep : W → List S → List (List ℚ) → W)
    (ag : QAgentState S W)
    (hlen : p.batchSize ≤ ag.replayBuffer.length)
    (t : Transition S)
    (hmem : t ∈ (shuffle ag.replayBuffer).take p.batchSize)
    (hact : t.action < (predict ag.model t.state).length) :
    ((trainModel p predict shuffle fitStep ag).model
        = fitStep ag.model
            (((shuffle ag.replayBuffer).take p.batchSize).map (·.state))
            (((shuffle ag.replayBuffer).take p.batchSize).map
              (bellmanTarget p predict ag.model (syncedTarget p ag))))
    ∧ (t.done = true →
        (bellmanTarget p predict ag.model (syncedTarget p ag) t)[t.action]?
          = some t.reward)
    ∧ (t.done = false →
        (bellmanTarget p predict ag.model (syncedTarget p ag) t)[t.action]?
          = some (t.reward + p.discountFactor
              * rowMax (predict (syncedTarget p ag) t.nextState)))
    ∧ (∀ j, j ≠ t.action →
        (bellmanTarget p predict ag.model (syncedTarget p ag) t)[j]?
          = (predict ag.model t.state)[j]?) := by
  refine ⟨?_, ?_, ?_, ?_⟩
  · simp [trainModel, Nat.not_lt.2 hlen]
  · intro hdone
    simp only [bellmanTarget, hdone, if_true]
    rw [List.getElem?_set_self hact]
  · intro hdone
    simp only [bellmanTarget, hdone, if_false, Bool.false_eq_true]
    rw [List.getElem?_set_self hact]
  · intro j hj
    cases hd : t.done <;>
      simp only [bellmanTarget, hd, if_true, if_false, Bool.false_eq_true] <;>
      exact List.getElem?_set_ne (fun h => hj h.symm)

/-- Hyperparameters for the concrete Bellman instance of the spec:
`discountFactor = 0.9`, `batchSize = 1`, `targetUpdateFreq = 2`. -/
def exParams : QParams :=
  { discountFactor := 9/10
    epsilon0 := 1
    epsilonDecay := 9995/10000
    minEpsilon := 5/1000
    replayBufferSize := 100
    batchSize := 1
    targetUpdateFreq := 2 }

/-- Concrete two-action approximator pair: the live network (`false`)
predicts `[0, 0]`, the target network (`true`) predicts `[10, 3]`
(max-Q 10) for every state. -/
def exPredict : Bool → Unit → List ℚ :=
  fun w _ => if w then [10, 3] else [0, 0]

/-- Concrete optimizer step that leaves the weights unchanged. -/
def exFit : Bool → List Unit → List (List ℚ) → Bool :=
  fun w _ _ => w

/-- A non-terminal transition with `reward = 5` taking action 0. -/
def exTrans5 : Transition Unit :=
  { state := (), action := 0, reward := 5, nextState := (), done := false }

/-- A terminal transition with `reward = -100` taking action 0. -/
def exTransTerm : Transition Unit :=
  { state := (), action := 0, reward := -100, nextState := (), done := true }

/-- An agent holding exactly the given transition, purely for the
concrete Bellman instances (live net `false`, target net `true`). -/
def exAgent (t : Transition Unit) : QAgentState Unit Bool :=
  { model := false
    targetModel := true
    replayBuffer := [t]
    epsilon := 1
    updateCount := 0 }

/-- Witness for C1, checking the spec's numeric instances: with
`reward = 5`, `discountFactor = 0.9` and target-network max-Q `10`, the
non-terminal target for the taken action is `5 + 0.9*10 = 14`; a
terminal transition with `reward = -100` has target exactly `-100`. -/
theorem C1_bellman_target_law_witness :
    (bellmanTarget exParams exPredict false
        (syncedTarget exParams (exAgent exTrans5)) exTrans5)[0]?
      = some (5 + (9/10 : ℚ) * rowMax (exPredict true ()))
    ∧ (bellmanTarget exParams exPredict false
        (syncedTarget exParams (exAgent exTrans5)) exTrans5)[0]? = some 14
    ∧ (bellmanTarget exParams exPredict false
        (syncedTarget exParams (exAgent exTransTerm)) exTransTerm)[0]?
      = some ((-100 : ℚ))
    ∧ (trainModel exParams exPredict id exFit (exAgent exTrans5)).model
      = exFit false [()]
          [bellmanTarget exParams exPredict false
            (syncedTarget exParams (exAgent exTrans5)) exTrans5] := by
  have h5 := C1_bellman_target_law exParams exPredict id exFit (exAgent exTrans5)
    (by decide) exTrans5 (by decide) (by decide)
  have hterm := C1_bellman_target_law exParams exPredict id exFit
    (exAgent exTransTerm) (by decide) exTransTerm (by decide) (by decide)
  refine ⟨h5.2.2.1 rfl, ?_, hterm.2.1 rfl, h5.1⟩
  norm_num [bellmanTarget, exPredict, exTrans5, exAgent, syncedTarget, exParams, rowMax]

/-! #### Target-network sync dynamics (C2) -/

/-- When the shuffle is a permutation, `trainModel` never changes the
replay buffer's length (early return keeps it; a completed call only
reorders it). -/
lemma trainModel_buffer_length {S W : Type} (p : QParams)
    (predict : W → S → List ℚ)
    (shuffle : List (Transition S) → List (Transition S))
    (fitStep : W → List S → List (List ℚ) → W)
    (hshuffle : ∀ l, List.Perm (shuffle l) l) (ag : QAgentState S W) :
    (trainModel p predict shuffle fitStep ag).replayBuffer.length
      = ag.replayBuffer.length := by
  unfold trainModel
  split
  · rfl
  · exact (hshuffle ag.replayBuffer).length_eq

/-- A completed training call increments the training-step counter. -/
lemma trainModel_updateCount {S W : Type} (p : QParams)
    (predict : W → S → List ℚ)
    (shuffle : List (Transition S) → List (Transition S))
    (fitStep : W → List S → List (List ℚ) → W)
    (ag : QAgentState S W) (hlen : p.batchSize ≤ ag.replayBuffer.length) :
    (trainModel p predict shuffle fitStep ag).updateCount = ag.updateCount + 1 := by
  simp [trainModel, Nat.not_lt.2 hlen]

/-- A completed training call whose incremented counter is not a
multiple of `targetUpdateFreq` leaves the target weights unchanged. -/
lemma trainModel_target_no_sync {S W : Type} (p : QParams)
    (predict : W → S → List ℚ)
    (shuffle : List (Transition S) → List (Transition S))
    (fitStep : W → List S → List (List ℚ) → W)
    (ag : QAgentState S W) (hlen : p.batchSize ≤ ag.replayBuffer.length)
    (h : (ag.updateCount + 1) % p.targetUpdateFreq ≠ 0) :
    (trainModel p predict shuffle fitStep ag).targetModel = ag.targetModel := by
  simp [trainModel, Nat.not_lt.2 hlen, syncedTarget, h]

/-- A completed training call whose incremented counter is a multiple
of `targetUpdateFreq` copies the live weights, as they are at the start
of the call, into the target network. -/
lemma trainModel_target_sync {S W : Type} (p : QParams)
    (predict : W → S → List ℚ)
    (shuffle : List (Transition S) → List (Transition S))
    (fitStep : W → List S → List (List ℚ) → W)
    (ag : QAgentState S W) (hlen : p.batchSize ≤ ag.replayBuffer.length)
    (h : (ag.updateCount + 1) % p.targetUpdateFreq = 0) :
    (trainModel p predict shuffle fitStep ag).targetModel = ag.model := by
  simp [trainModel, Nat.not_lt.2 hlen, syncedTarget, h]

/-- Joint invariant for the first `targetUpdateFreq - 1` completed
training calls from a fresh counter: the target weights are untouched,
the counter counts the calls, and the buffer length is preserved. -/
lemma iterate_no_sync_invariant {S W : Type} (p : QParams)
    (predict : W → S → List ℚ)
    (shuffle : List (Transition S) → List (Transition S))
    (fitStep : W → List S → List (List ℚ) → W)
    (hshuffle : ∀ l, List.Perm (shuffle l) l)
    (ag0 : QAgentState S W) (hlen : p.batchSize ≤ ag0.replayBuffer.length)
    (hcount : ag0.updateCount = 0) :
    ∀ k, k < p.targetUpdateFreq →
      ((trainModel p predict shuffle fitStep)^[k] ag0).targetModel = ag0.targetModel
      ∧ ((trainModel p predict shuffle fitStep)^[k] ag0).updateCount = k
      ∧ ((trainModel p predict shuffle fitStep)^[k] ag0).replayBuffer.length
          = ag0.replayBuffer.length := by
  intro k
  induction k with
  | zero => exact fun _ => ⟨rfl, hcount, rfl⟩
  | succ n ih =>
    intro hlt
    obtain ⟨ht, hc, hb⟩ := ih (Nat.lt_of_succ_lt hlt)
    rw [Function.iterate_succ_apply']
    have hlen' : p.batchSize
        ≤ ((trainModel p predict shuffle fitStep)^[n] ag0).replayBuffer.length := by
      rw [hb]; exact hlen
    have hmod : (((trainModel p predict shuffle fitStep)^[n] ag0).updateCount + 1)
        % p.targetUpdateFreq ≠ 0 := by
      rw [hc, Nat.mod_eq_of_lt hlt]
      omega
    refine ⟨?_, ?_, ?_⟩
    · rw [trainModel_target_no_sync p predict shuffle fitStep _ hlen' hmod, ht]
    · rw [trainModel_updateCount p predict shuffle fitStep _ hlen', hc]
    · rw [trainModel_buffer_length p predict shuffle fitStep hshuffle, hb]

/-- C2 (amended): starting from a fresh `QAgent` (counter `0`), with
every training call finding a sufficient buffer, the target weights
stay at their initial value through the first `targetUpdateFreq - 1`
completed training calls, and after exactly `targetUpdateFreq`
completed calls they equal the live weights **as they were entering
that call** — i.e. the live weights after `targetUpdateFreq - 1`
optimization steps, because the sync happens at the top of the call,
before the call's own `fit` — not the live weights after the call.
Training calls that return early for insufficient buffer are full
no-ops and do not count toward `targetUpdateFreq`. -/
theorem C2_target_sync_amended {S W : Type} (p : QParams)
    (predict : W → S → List ℚ)
    (shuffle : List (Transition S) → List (Transition S))
    (fitStep : W → List S → List (List ℚ) → W)
    (hshuffle : ∀ l, List.Perm (shuffle l) l)
    (ag0 : QAgentState S W) (hlen : p.batchSize ≤ ag0.replayBuffer.length)
    (hcount : ag0.updateCount = 0) (hfreq : 1 ≤ p.targetUpdateFreq) :
    (∀ k, 1 ≤ k → k < p.targetUpdateFreq →
      ((trainModel p predict shuffle fitStep)^[k] ag0).targetModel
        = ag0.targetModel)
    ∧ ((trainModel p predict shuffle fitStep)^[p.targetUpdateFreq] ag0).targetModel
        = ((trainModel p predict shuffle fitStep)^[p.targetUpdateFreq - 1] ag0).model
    ∧ (∀ ag : QAgentState S W, ag.replayBuffer.length < p.batchSize →
        trainModel p predict shuffle fitStep ag = ag) := by
  refine ⟨?_, ?_, ?_⟩
  · intro k _ hk
    exact (iterate_no_sync_invariant p predict shuffle fitStep hshuffle ag0 hlen
      hcount k hk).1
  · obtain ⟨n, hn⟩ : ∃ n, p.targetUpdateFreq = n + 1 :=
      ⟨p.targetUpdateFreq - 1, (Nat.succ_pred_eq_of_pos hfreq).symm⟩
    obtain ⟨_, hc, hb⟩ := iterate_no_sync_invariant p predict shuffle fitStep
      hshuffle ag0 hlen hcount n (by omega)
    have hlen' : p.batchSize
        ≤ ((trainModel p predict shuffle fitStep)^[n] ag0).replayBuffer.length := by
      rw [hb]; exact hlen
    have hmod : (((trainModel p predict shuffle fitStep)^[n] ag0).updateCount + 1)
        % p.targetUpdateFreq = 0 := by
      rw [hc, ← hn, Nat.mod_self]
    have : p.targetUpdateFreq - 1 = n := by omega
    rw [this, hn, Function.iterate_succ_apply']
    exact trainModel_target_sync p predict shuffle fitStep _ hlen' hmod
  · intro ag h
    simp [trainModel, h]

/-- Hyperparameters for the C2/C3 concrete runs: `batchSize = 1`,
`targetUpdateFreq = 2`, buffer capacity as noted per use. -/
def cbParams : QParams :=
  { discountFactor := 99/100
    epsilon0 := 1
    epsilonDecay := 1/2
    minEpsilon := 1/100
    replayBufferSize := 10
    batchSize := 1
    targetUpdateFreq := 2 }

/-- Single-action approximator over `ℕ`-valued weights. -/
def cbPredict : ℕ → Unit → List ℚ := fun _ _ => [0]

/-- An optimizer step that visibly changes the live weights. -/
def cbFit : ℕ → List Unit → List (List ℚ) → ℕ := fun w _ _ => w + 1

/-- A fresh agent (weights `0`, counter `0`, target synced) that has
remembered one transition, so every training call finds a sufficient
buffer (`batchSize = 1`). -/
def cbAgent0 : QAgentState Unit ℕ :=
  remember cbParams (freshAgent cbParams 0) ⟨(), 0, 0, (), false⟩

/-- Counterexample to C2 as stated: `targetUpdateFreq = 2`, a fresh
agent, two completed training calls (buffer size `1 = batchSize`
throughout, optimizer step `w ↦ w + 1`).  After the 2nd call the target
weights are `1` (the live weights entering that call) while the live
weights are `2`, so target and live are **not** equal after exactly
`targetUpdateFreq` completed training calls. -/
theorem C2_counterexample :
    ¬ (((trainModel cbParams cbPredict id cbFit)^[cbParams.targetUpdateFreq]
          cbAgent0).targetModel
        = ((trainModel cbParams cbPredict id cbFit)^[cbParams.targetUpdateFreq]
          cbAgent0).model) := by
  decide

/-- Witness for C2 (amended) at the concrete run of the
counterexample: after call 1 the target weights still equal the fresh
agent's, and after call 2 they equal the live weights after call 1. -/
theorem C2_target_sync_amended_witness :
    ((trainModel cbParams cbPredict id cbFit)^[1] cbAgent0).targetModel
        = cbAgent0.targetModel
    ∧ ((trainModel cbParams cbPredict id cbFit)^[2] cbAgent0).targetModel
        = ((trainModel cbParams cbPredict id cbFit)^[1] cbAgent0).model := by
  have h := C2_target_sync_amended cbParams cbPredict id cbFit
    (fun l => List.Perm.refl l) cbAgent0 (by decide) (by decide) (by decide)
  exact ⟨h.1 1 (by decide) (by decide), h.2.1⟩

/-- C10: frame property of a completed training call.  When the
in-place shuffle is a permutation, `trainModel` with a sufficient
buffer neither adds nor removes transitions: the resulting buffer is a
permutation of the old one, the stored multiset and the length are
unchanged.  The agent state consists exactly of the live weights, the
target weights, the buffer, epsilon and the step counter, so the buffer
facts say that those four non-buffer fields are the only ones a
completed call can change. -/
theorem C10_train_frame {S W : Type} (p : QParams)
    (predict : W → S → List ℚ)
    (shuffle : List (Transition S) → List (Transition S))
    (fitStep : W → List S → List (List ℚ) → W)
    (ag : QAgentState S W)
    (hshuffle : ∀ l, List.Perm (shuffle l) l)
    (hlen : p.batchSize ≤ ag.replayBuffer.length) :
    List.Perm (trainModel p predict shuffle fitStep ag).replayBuffer
        ag.replayBuffer
    ∧ ((trainModel p predict shuffle fitStep ag).replayBuffer
        : Multiset (Transition S))
      = (ag.replayBuffer : Multiset (Transition S))
    ∧ (trainModel p predict shuffle fitStep ag).replayBuffer.length
      = ag.replayBuffer.length := by
  have hbuf : (trainModel p predict shuffle fitStep ag).replayBuffer
      = shuffle ag.replayBuffer := by
    simp [trainModel, Nat.not_lt.2 hlen]
  rw [hbuf]
  exact ⟨hshuffle ag.replayBuffer,
    Multiset.coe_eq_coe.2 (hshuffle ag.replayBuffer),
    (hshuffle ag.replayBuffer).length_eq⟩

/-- An agent holding two transitions, for the C10 witness
(`cbParams.batchSize = 1`, so training completes). -/
def cbAgent2 : QAgentState Unit ℕ :=
  remember cbParams (remember cbParams (freshAgent cbParams 0)
    ⟨(), 0, 0, (), false⟩) ⟨(), 1, 2, (), true⟩

/-- Witness for C10: a completed training call whose shuffle is
`List.reverse` keeps the two stored transitions (as a multiset) and the
buffer length. -/
theorem C10_train_frame_witness :
    List.Perm (trainModel cbParams cbPredict List.reverse cbFit
        cbAgent2).replayBuffer cbAgent2.replayBuffer
    ∧ ((trainModel cbParams cbPredict List.reverse cbFit cbAgent2).replayBuffer
        : Multiset (Transition Unit))
      = (cbAgent2.replayBuffer : Multiset (Transition Unit))
    ∧ (trainModel cbParams cbPredict List.reverse cbFit
        cbAgent2).replayBuffer.length = cbAgent2.replayBuffer.length :=
  C10_train_frame cbParams cbPredict List.reverse cbFit cbAgent2
    (fun l => List.reverse_perm l) (by decide)

/-! #### Replay-buffer eviction under operation interleavings (C3) -/

/-- Replay-buffer operations an agent performs between ticks:
`remember` pushes (bot.js line 1225/1259) and `trainModel` calls
(bot.js line 1227/1260), the latter re-sorting the buffer in place. -/
inductive BufOp (S : Type) where
  | push (t : Transition S)
  | trainOp
deriving DecidableEq, Repr

/-- Run one buffer operation on the agent. -/
def applyBufOp {S W : Type} (p : QParams) (predict : W → S → List ℚ)
    (shuffle : List (Transition S) → List (Transition S))
    (fitStep : W → List S → List (List ℚ) → W)
    (ag : QAgentState S W) : BufOp S → QAgentState S W
  | BufOp.push t => remember p ag t
  | BufOp.trainOp => trainModel p predict shuffle fitStep ag

/-- Run a sequence of buffer operations left to right. -/
def runBufOps {S W : Type} (p : QParams) (predict : W → S → List ℚ)
    (shuffle : List (Transition S) → List (Transition S))
    (fitStep : W → List S → List (List ℚ) → W)
    (ops : List (BufOp S)) (ag : QAgentState S W) : QAgentState S W :=
  ops.foldl (applyBufOp p predict shuffle fitStep) ag

/-- Folding `remember` over a list of pushed transitions keeps the
suffix of the accumulated stream that fits the capacity. -/
lemma foldl_remember_buffer {S W : Type} (p : QParams) :
    ∀ (ts : List (Transition S)) (ag : QAgentState S W),
      ag.replayBuffer.length ≤ p.replayBufferSize →
      (ts.foldl (remember p) ag).replayBuffer
        = (ag.replayBuffer ++ ts).drop
            ((ag.replayBuffer ++ ts).length - p.replayBufferSize) := by
  intro ts
  induction ts with
  | nil =>
    intro ag h
    simp [Nat.sub_eq_zero_of_le h]
  | cons t ts ih =>
    intro ag h
    rw [List.foldl_cons]
    by_cases hfull : p.replayBufferSize < (ag.replayBuffer ++ [t]).length
    · have hbuf : (remember p ag t).replayBuffer
          = (ag.replayBuffer ++ [t]).drop 1 := by
        show (if p.replayBufferSize < (ag.replayBuffer ++ [t]).length
            then (ag.replayBuffer ++ [t]).drop 1
            else ag.replayBuffer ++ [t]) = (ag.replayBuffer ++ [t]).drop 1
        rw [if_pos hfull]
      have hlen : (remember p ag t).replayBuffer.length ≤ p.replayBufferSize := by
        rw [hbuf]
        simp only [List.length_drop, List.length_append, List.length_cons,
          List.length_nil]
        omega
      rw [ih (remember p ag t) hlen, hbuf]
      have key := @List.drop_append_eq_append_drop _ (ag.replayBuffer ++ [t]) ts 1
      have h1 : 1 - (ag.replayBuffer ++ [t]).length = 0 := by
        simp only [List.length_append, List.length_cons, List.length_nil]
        omega
      rw [h1, List.drop_zero] at key
      rw [← key, List.drop_drop]
      have h2 : (ag.replayBuffer ++ [t]) ++ ts = ag.replayBuffer ++ t :: ts := by
        simp
      rw [h2]
      congr 1
      simp only [List.length_drop, List.length_append, List.length_cons,
        List.length_nil] at *
      omega
    · have hbuf : (remember p ag t).replayBuffer = ag.replayBuffer ++ [t] := by
        show (if p.replayBufferSize < (ag.replayBuffer ++ [t]).length
            then (ag.replayBuffer ++ [t]).drop 1
            else ag.replayBuffer ++ [t]) = ag.replayBuffer ++ [t]
        rw [if_neg hfull]
      have hlen : (remember p ag t).replayBuffer.length ≤ p.replayBufferSize := by
        rw [hbuf]
        simp only [List.length_append, List.length_cons, List.length_nil] at *
        omega
      rw [ih (remember p ag t) hlen, hbuf]
      have h2 : (ag.replayBuffer ++ [t]) ++ ts = ag.replayBuffer ++ t :: ts := by
        simp
      rw [h2]

/-- C3 (amended): FIFO eviction for uninterrupted push sequences.
Starting from an empty buffer, pushing `capacity + m` transitions via
`remember` with no other buffer operation in between leaves exactly the
last `capacity` of them, in insertion order, and (for distinct
transitions) the `m` pushed earliest are absent.  The claim's "any
interleaving with other buffer operations" part is dropped: an
interleaved `trainModel` re-sorts the buffer in place with a random
comparator, after which `shift()` no longer evicts the oldest
transition (see the C3 counterexample). -/
theorem C3_fifo_amended {S W : Type} (p : QParams) (ag : QAgentState S W)
    (hag : ag.replayBuffer = []) (ts : List (Transition S)) (m : ℕ)
    (hm : 1 ≤ m) (hts : ts.length = p.replayBufferSize + m) :
    (ts.foldl (remember p) ag).replayBuffer = ts.drop m
    ∧ (ts.foldl (remember p) ag).replayBuffer.length = p.replayBufferSize
    ∧ (ts.Nodup → ∀ t ∈ ts.take m, t ∉ (ts.foldl (remember p) ag).replayBuffer) := by
  have hbuf := foldl_remember_buffer p ts ag (by rw [hag]; simp)
  rw [hag] at hbuf
  simp only [List.nil_append] at hbuf
  rw [hts] at hbuf
  have hidx : p.replayBufferSize + m - p.replayBufferSize = m := by omega
  rw [hidx] at hbuf
  refine ⟨hbuf, ?_, ?_⟩
  · rw [hbuf, List.length_drop, hts]
    omega
  · intro hnd t htm
    rw [hbuf]
    exact fun hdrop => (List.disjoint_take_drop hnd le_rfl) htm hdrop

/-- Hyperparameters for the C3 concrete runs: buffer capacity 2,
`batchSize = 1`. -/
def c3Params : QParams :=
  { discountFactor := 99/100
    epsilon0 := 1
    epsilonDecay := 1/2
    minEpsilon := 1/100
    replayBufferSize := 2
    batchSize := 1
    targetUpdateFreq := 2 }

/-- Single-action approximator over `ℕ`-indexed states. -/
def c3Predict : Unit → ℕ → List ℚ := fun _ _ => [0]

/-- Trivial optimizer step for the C3 runs. -/
def c3Fit : Unit → List ℕ → List (List ℚ) → Unit := fun _ _ _ => ()

/-- The `k`-th distinct transition pushed in the C3 runs. -/
def c3T (k : ℕ) : Transition ℕ :=
  { state := k, action := 0, reward := 0, nextState := k, done := false }

/-- Counterexample to C3 as stated: capacity `2`, `m = 1`, and the
`2 + 1` pushes interleaved with one `trainModel` call (buffer size
`2 ≥ batchSize = 1`) whose in-place sort reverses the buffer.  The
final buffer is `[c3T 1, c3T 3]`: it has the right length, but the
earliest pushed transition `c3T 1` is still present (the sort moved it
out of the front before `shift()` ran), so eviction is not FIFO under
interleaving with other buffer operations. -/
theorem C3_counterexample :
    (runBufOps c3Params c3Predict List.reverse c3Fit
        [BufOp.push (c3T 1), BufOp.push (c3T 2), BufOp.trainOp,
          BufOp.push (c3T 3)]
        (freshAgent c3Params ())).replayBuffer = [c3T 1, c3T 3]
    ∧ c3T 1 ∈ (runBufOps c3Params c3Predict List.reverse c3Fit
        [BufOp.push (c3T 1), BufOp.push (c3T 2), BufOp.trainOp,
          BufOp.push (c3T 3)]
        (freshAgent c3Params ())).replayBuffer := by
  decide

/-- Witness for C3 (amended): capacity `2`, pushing the `2 + 1`
distinct transitions `c3T 1, c3T 2, c3T 3` with no interleaved
training leaves `[c3T 2, c3T 3]` and the earliest push `c3T 1` is
absent. -/
theorem C3_fifo_amended_witness :
    ([c3T 1, c3T 2, c3T 3].foldl (remember c3Params)
        (freshAgent c3Params ())).replayBuffer
      = [c3T 1, c3T 2, c3T 3].drop 1
    ∧ ([c3T 1, c3T 2, c3T 3].foldl (remember c3Params)
        (freshAgent c3Params ())).replayBuffer.length = c3Params.replayBufferSize
    ∧ c3T 1 ∉ ([c3T 1, c3T 2, c3T 3].foldl (remember c3Params)
        (freshAgent c3Params ())).replayBuffer := by
  have h := C3_fifo_amended c3Params (freshAgent c3Params ()) rfl
    [c3T 1, c3T 2, c3T 3] 1 (by decide) (by decide)
  exact ⟨h.1, h.2.1, h.2.2 (by decide) (c3T 1) (by decide)⟩

/-! #### Epsilon dynamics (C7)

`trainModel` decays epsilon (bot.js line 339); `_think` may boost it
to 0.3 after an IDLE action when the consecutive-IDLE counter exceeds
15 and epsilon is below 0.1 (bot.js lines 1236-1245). -/

/-- The epsilon update of a completed training call (bot.js line 339):
`epsilon = Math.max(minEpsilon, epsilon * epsilonDecay)`. -/
def epsAfterTrain (p : QParams) (e : ℚ) : ℚ :=
  max p.minEpsilon (e * p.epsilonDecay)

/-- The epsilon-relevant per-bot state of `_think`: the current
exploration rate and the `consecutiveIdleActions` counter. -/
structure ThinkEps where
  epsilon : ℚ
  idle : ℕ
deriving DecidableEq, Repr

/-- The anti-stall logic of `_think` (bot.js lines 1236-1245) after an
action is chosen.  On IDLE the counter is incremented first; if it then
exceeds 15 while `epsilon < 0.1`, epsilon is set to `0.3` and the
counter reset.  Any non-IDLE action resets the counter and leaves
epsilon alone. -/
def onActionChosen (s : ThinkEps) (isIdle : Bool) : ThinkEps :=
  if isIdle then
    if 15 < s.idle + 1 ∧ s.epsilon < 1/10 then { epsilon := 3/10, idle := 0 }
    else { s with idle := s.idle + 1 }
  else { s with idle := 0 }

/-- The events of `_think` that can touch epsilon: a completed training
call, or an action choice (IDLE or not). -/
inductive EpsEv where
  | trainDone
  | act (isIdle : Bool)
deriving DecidableEq, Repr

/-- Apply one epsilon-relevant event. -/
def epsStep (p : QParams) (s : ThinkEps) : EpsEv → ThinkEps
  | EpsEv.trainDone => { s with epsilon := epsAfterTrain p s.epsilon }
  | EpsEv.act b => onActionChosen s b

/-- Run a sequence of epsilon-relevant events left to right. -/
def epsRun (p : QParams) (evs : List EpsEv) (s : ThinkEps) : ThinkEps :=
  evs.foldl (epsStep p) s

/-- One event keeps epsilon within `[minEpsilon, epsilon0]`, given the
hyperparameter sanity conditions satisfied by the defaults. -/
lemma epsStep_bounds (p : QParams) (hm0 : 0 ≤ p.minEpsilon)
    (hd1 : p.epsilonDecay ≤ 1) (hm3 : p.minEpsilon ≤ 3/10)
    (h3i : 3/10 ≤ p.epsilon0) (s : ThinkEps)
    (hlo : p.minEpsilon ≤ s.epsilon) (hhi : s.epsilon ≤ p.epsilon0) :
    ∀ ev, p.minEpsilon ≤ (epsStep p s ev).epsilon
      ∧ (epsStep p s ev).epsilon ≤ p.epsilon0 := by
  intro ev
  cases ev with
  | trainDone =>
    refine ⟨le_max_left _ _, max_le (le_trans hm3 h3i) ?_⟩
    calc s.epsilon * p.epsilonDecay
        ≤ s.epsilon := mul_le_of_le_one_right (le_trans hm0 hlo) hd1
      _ ≤ p.epsilon0 := hhi
  | act b =>
    cases b with
    | false => exact ⟨hlo, hhi⟩
    | true =>
      by_cases hcond : 15 < s.idle + 1 ∧ s.epsilon < 1/10
      · simp only [onActionChosen, epsStep, if_pos hcond, if_true]
        exact ⟨hm3, h3i⟩
      · simp only [onActionChosen, epsStep, if_neg hcond, if_true]
        exact ⟨hlo, hhi⟩

/-- Any sequence of epsilon events keeps epsilon within
`[minEpsilon, epsilon0]`. -/
lemma epsRun_bounds (p : QParams) (hm0 : 0 ≤ p.minEpsilon)
    (hd1 : p.epsilonDecay ≤ 1) (hm3 : p.minEpsilon ≤ 3/10)
    (h3i : 3/10 ≤ p.epsilon0) :
    ∀ (evs : List EpsEv) (s : ThinkEps),
      p.minEpsilon ≤ s.epsilon → s.epsilon ≤ p.epsilon0 →
      p.minEpsilon ≤ (epsRun p evs s).epsilon
      ∧ (epsRun p evs s).epsilon ≤ p.epsilon0 := by
  intro evs
  induction evs with
  | nil => exact fun s hlo hhi => ⟨hlo, hhi⟩
  | cons ev evs ih =>
    intro s hlo hhi
    have h := epsStep_bounds p hm0 hd1 hm3 h3i s hlo hhi ev
    exact ih (epsStep p s ev) h.1 h.2

/-- C7: the epsilon invariant.  Every completed training call updates
epsilon to `max(minEpsilon, epsilon * epsilonDecay)`, which never
increases epsilon and never drops it below `minEpsilon`; any sequence
of training and action events keeps epsilon within
`[minEpsilon, epsilon0]`; and the only event that can increase epsilon
is the anti-stall boost — an IDLE action making the consecutive-IDLE
counter exceed 15 while `epsilon < 0.1`, which sets epsilon to `0.3`.
The hyperparameter hypotheses hold for the defaults
(`minEpsilon = 0.005`, `epsilonDecay = 0.9995`, `epsilon0 = 1`). -/
theorem C7_epsilon_invariant {S W : Type} (p : QParams)
    (predict : W → S → List ℚ)
    (shuffle : List (Transition S) → List (Transition S))
    (fitStep : W → List S → List (List ℚ) → W)
    (hm0 : 0 ≤ p.minEpsilon) (hd1 : p.epsilonDecay ≤ 1)
    (hm3 : p.minEpsilon ≤ 3/10) (h3i : 3/10 ≤ p.epsilon0) :
    (∀ ag : QAgentState S W, p.batchSize ≤ ag.replayBuffer.length →
      (trainModel p predict shuffle fitStep ag).epsilon
        = max p.minEpsilon (ag.epsilon * p.epsilonDecay))
    ∧ (∀ e : ℚ, p.minEpsilon ≤ e →
        epsAfterTrain p e ≤ e ∧ p.minEpsilon ≤ epsAfterTrain p e)
    ∧ (∀ (evs : List EpsEv) (s : ThinkEps),
        p.minEpsilon ≤ s.epsilon → s.epsilon ≤ p.epsilon0 →
        p.minEpsilon ≤ (epsRun p evs s).epsilon
        ∧ (epsRun p evs s).epsilon ≤ p.epsilon0)
    ∧ (∀ (s : ThinkEps) (b : Bool),
        s.epsilon < (onActionChosen s b).epsilon →
        b = true ∧ 15 < s.idle + 1 ∧ s.epsilon < 1/10
        ∧ (onActionChosen s b).epsilon = 3/10) := by
  refine ⟨?_, ?_, epsRun_bounds p hm0 hd1 hm3 h3i, ?_⟩
  · intro ag hlen
    simp [trainModel, Nat.not_lt.2 hlen]
  · intro e he
    exact ⟨max_le he (mul_le_of_le_one_right (le_trans hm0 he) hd1),
      le_max_left _ _⟩
  · intro s b hlt
    cases b with
    | false => exact absurd hlt (lt_irrefl _)
    | true =>
      by_cases hcond : 15 < s.idle + 1 ∧ s.epsilon < 1/10
      · refine ⟨rfl, hcond.1, hcond.2, ?_⟩
        rw [onActionChosen, if_pos rfl, if_pos hcond]
      · rw [onActionChosen, if_pos rfl, if_neg hcond] at hlt
        exact absurd hlt (lt_irrefl _)

/-- Witness for C7 with the `cbParams` hyperparameters
(`minEpsilon = 0.01`, `epsilonDecay = 0.5`, `epsilon0 = 1`): one
completed training call decays epsilon of the concrete agent; epsilon
stays within bounds over a train-then-IDLE event run; and the boost
fires from `epsilon = 1/20` with 16 prior consecutive IDLEs. -/
theorem C7_epsilon_invariant_witness :
    (trainModel cbParams cbPredict id cbFit cbAgent0).epsilon
        = max cbParams.minEpsilon (cbAgent0.epsilon * cbParams.epsilonDecay)
    ∧ (epsAfterTrain cbParams (1/2) ≤ 1/2
        ∧ cbParams.minEpsilon ≤ epsAfterTrain cbParams (1/2))
    ∧ (cbParams.minEpsilon
          ≤ (epsRun cbParams [EpsEv.trainDone, EpsEv.act true] ⟨1, 0⟩).epsilon
        ∧ (epsRun cbParams [EpsEv.trainDone, EpsEv.act true] ⟨1, 0⟩).epsilon
          ≤ cbParams.epsilon0)
    ∧ ((15 : ℕ) < 16 + 1 ∧ (1/20 : ℚ) < 1/10
        ∧ (onActionChosen ⟨1/20, 16⟩ true).epsilon = 3/10) := by
  have h := C7_epsilon_invariant (S := Unit) (W := ℕ) cbParams cbPredict id cbFit
    (by norm_num [cbParams]) (by norm_num [cbParams]) (by norm_num [cbParams])
    (by norm_num [cbParams])
  have hb := h.2.2.2 ⟨1/20, 16⟩ true
    (by norm_num [onActionChosen])
  exact ⟨h.1 cbAgent0 (by decide),
    h.2.1 (1/2) (by norm_num [cbParams]),
    h.2.2.1 [EpsEv.trainDone, EpsEv.act true] ⟨1, 0⟩ (by norm_num [cbParams])
      (by norm_num [cbParams]),
    hb.2.1, hb.2.2.1, hb.2.2.2⟩

/-- Counterexample to C8 as stated: slot 0 fails at time `0` with all
accumulated delays `0`.  No connection attempt is armed for the
60-second cooldown mark: the cooldown timer only runs
`scheduleNextBot`, which arms a further timer of
`getIntervalForBot(0) = (300 + 0 + 60) * 1000` ms (delay already
incremented), so the attempt is armed for `420000` ms, not `60000`. -/
theorem C8_counterexample :
    ((60000 : ℕ),
        TimerEv.connectAttempt ⟨0, by decide⟩)
      ∉ (afterFailure ⟨fun _ => 0, []⟩ ⟨0, by decide⟩ 0).timers
    ∧ ((420000 : ℕ),
        TimerEv.connectAttempt ⟨0, by decide⟩)
      ∈ (afterFailure ⟨fun _ => 0, []⟩ ⟨0, by decide⟩ 0).timers := by
  decide

/-- C8 (amended): a connection-refused/reset error on slot `i` at time
`t` first increments every slot's accumulated delay by the 60-second
penalty (so every slot's next computed interval grows by exactly
60000 ms), leaves every already-armed timer untouched, and arms a
cooldown timer for slot `i` only, at `t + 60 s`; when that timer fires
it runs `scheduleNextBot i`, so the slot's next connection attempt is
armed for `t + 60 s + getIntervalForBot(i)` computed with the
incremented delay — a 60-second cooldown plus the slot's full interval,
not the bare 60-second mark. -/
theorem C8_failure_reschedule_amended (s : SchedState) (i : Fin maxBots)
    (t : ℕ) :
    (∀ j, (onConnectionError s i t).delays j = s.delays j + 60)
    ∧ (∀ j, getIntervalForBot (onConnectionError s i t).delays j
        = getIntervalForBot s.delays j + 60 * 1000)
    ∧ (onConnectionError s i t).timers
        = s.timers ++ [(t + 60 * 1000, TimerEv.scheduleFire i)]
    ∧ (afterFailure s i t).timers
        = s.timers
          ++ [(t + 60 * 1000, TimerEv.scheduleFire i),
              (t + 60 * 1000
                + getIntervalForBot (delayAllSchedulesOneMinute s.delays) i,
                TimerEv.connectAttempt i)] := by
  refine ⟨fun j => rfl, ?_, rfl, ?_⟩
  · intro j
    simp only [onConnectionError, getIntervalForBot, delayAllSchedulesOneMinute]
    ring
  · simp [afterFailure, scheduleNextBot, onConnectionError]

/-- Counterexample to C9 as stated for the scheduler variants: a
slot's name is a pure function of its random draws and no uniqueness
check exists, so the universal claim "names produced by
`generateRandomName` for simultaneously active slots are pairwise
distinct" fails at the concrete draw outcome where two slots both draw
index 0 eight times — both get the name `Bot_aaaaaaaa`. -/
theorem C9_counterexample :
    ¬ (∀ draws₁ draws₂ : List ℕ,
        draws₁.length = 8 → draws₂.length = 8 →
        (∀ x ∈ draws₁, x < 36) → (∀ x ∈ draws₂, x < 36) →
        generateRandomName draws₁ ≠ generateRandomName draws₂) := by
  intro h
  exact h (List.replicate 8 0) (List.replicate 8 0) (by decide) (by decide)
    (by decide) (by decide) rfl

/-- The fresh-name loop yields pairwise-distinct names, none of which
is already used. -/
lemma genFreshNames_nodup_not_used :
    ∀ (stream : List ℕ) (need : ℕ) (used : List ℕ),
      (genFreshNames need used stream).Nodup
      ∧ ∀ x ∈ genFreshNames need used stream, x ∉ used := by
  intro stream
  induction stream with
  | nil =>
    intro need used
    cases need <;> simp [genFreshNames]
  | cons r rs ih =>
    intro need used
    cases need with
    | zero => simp [genFreshNames]
    | succ n =>
      by_cases hr : r ∈ used
      · simpa [genFreshNames, hr] using ih (n + 1) used
      · obtain ⟨hnd, hmem⟩ := ih n (r :: used)
        have hgoal : genFreshNames (n + 1) used (r :: rs)
            = r :: genFreshNames n (r :: used) rs := by
          simp [genFreshNames, hr]
        rw [hgoal]
        constructor
        · exact List.nodup_cons.2
            ⟨fun hx => (hmem r hx) (List.mem_cons_self r used), hnd⟩
        · intro x hx
          rcases List.mem_cons.1 hx with hx | hx
          · rw [hx]; exact hr
          · exact fun hxu => (hmem x hx) (List.mem_cons_of_mem r hxu)

/-- C9 (amended): the RL fleet part of the claim holds — provided the
persisted configs carry pairwise-distinct usernames, the identities
`initializeBots` connects (reconnected configs plus freshly generated
`RL_Agent_${n}` names, modelled by their numeric content `n`) are
pairwise distinct, because generation re-draws while the candidate is
in the set of loaded and already-generated names.  The scheduler
variants give no such guarantee: `generateRandomName` is a pure
function of its random draws with no cross-slot check, so equal draws
produce equal names (see the counterexample). -/
theorem C9_name_uniqueness_amended (loaded : List ℕ) (desired : ℕ)
    (stream : List ℕ) (hl : loaded.Nodup) :
    (initializeNames loaded desired stream).Nodup
    ∧ ∀ draws₁ draws₂ : List ℕ, draws₁ = draws₂ →
        generateRandomName draws₁ = generateRandomName draws₂ := by
  refine ⟨?_, fun _ _ h => by rw [h]⟩
  have hfresh := genFreshNames_nodup_not_used stream
    (desired - (loaded.take desired).length) loaded
  refine List.Nodup.append (hl.sublist (List.take_sublist _ _)) hfresh.1 ?_
  intro x hx hx'
  exact hfresh.2 x hx' ((List.take_sublist _ _).subset hx)

/-- Witness for C9 (amended): a loaded fleet `[3, 5]` (distinct),
desired count 4, and the random stream `[5, 7, 3, 7, 9]`: slot names
come out as `[3, 5, 7, 9]` — the duplicates of loaded or
already-generated names are skipped — and the result is pairwise
distinct. -/
theorem C9_name_uniqueness_amended_witness :
    (initializeNames [3, 5] 4 [5, 7, 3, 7, 9]).Nodup
    ∧ initializeNames [3, 5] 4 [5, 7, 3, 7, 9] = [3, 5, 7, 9]
    ∧ generateRandomName (List.replicate 8 0)
      = generateRandomName (List.replicate 8 0) :=
  ⟨(C9_name_uniqueness_amended [3, 5] 4 [5, 7, 3, 7, 9] (by decide)).1,
    by decide,
    (C9_name_uniqueness_amended [3, 5] 4 [5, 7, 3, 7, 9] (by decide)).2
      (List.replicate 8 0) (List.replicate 8 0) rfl⟩

end BotFleet
